import Mathlib

/-!
Verification development for the kite tick-collector repository
(src/kite_manual.py, src/kite_ws1.py, src/kite_ws.py, src/my_helpers.py).

The repository contains three variants of the same collector:
per-instrument rolling aggregation of websocket ticks (`tick_store`,
`on_ticks`), a rate/phase gated batched flush to sqlite
(`save_to_db_batch` in kite_manual.py and kite_ws1.py, `periodic_save`
plus `save_to_db` in kite_ws.py), a market-session phase decision
(`market_phase` in kite_ws1.py, `is_market_open` / `is_market_closed`
plus the driver loop in kite_manual.py), and a shutdown path
(`graceful_shutdown` in kite_manual.py).

Every definition below is a shallow embedding of the corresponding
Python code; times are seconds as naturals (time-of-day seconds since
midnight for the wall clock, epoch-style seconds for `time.time()`),
prices and averages are exact rationals, quantities and volumes are
naturals.
-/

namespace Kite

/-- ROLLING_WINDOW = 20 (kite_manual.py line 21, kite_ws1.py line 16, kite_ws.py line 29). -/
def ROLLING_WINDOW : Nat := 20

/-- SAVE_INTERVAL = 20 seconds (kite_manual.py line 22, kite_ws1.py line 17, kite_ws.py line 30). -/
def SAVE_INTERVAL : Nat := 20

/-- MAX_RUNTIME = 5.5 * 60 * 60 seconds (kite_manual.py line 20). -/
def MAX_RUNTIME : Nat := 19800

/-- MARKET_START = 9:15 as seconds since midnight (kite_manual.py line 27). -/
def MARKET_START_S : Nat := 33300

/-- MARKET_END = 15:30 as seconds since midnight (kite_manual.py line 28). -/
def MARKET_END_S : Nat := 55800

/-- Session start of kite_ws1.py, 9:15 as seconds since midnight (kite_ws1.py line 50). -/
def WS1_START_S : Nat := 33300

/-- Session end of kite_ws1.py, 12:00 as seconds since midnight (kite_ws1.py line 51). -/
def WS1_END_S : Nat := 43200

/-- Round half to even on an exact rational, the rounding used by the Python
built-in `round` on a value that is representable exactly. -/
def roundHalfEven (x : ℚ) : ℤ :=
  let n : ℤ := Int.floor x
  let frac : ℚ := x - (n : ℚ)
  if frac < 1/2 then n
  else if 1/2 < frac then n + 1
  else if n % 2 = 0 then n else n + 1

/-- Embedding of Python `round(x, 2)` on exact rationals. -/
def pyRound2 (x : ℚ) : ℚ := ((roundHalfEven (x * 100) : ℤ) : ℚ) / 100

/-- One tick dictionary as consumed by `on_ticks`: `instrument_token` is a
required key (direct index in the source), the other fields are read with
`dict.get` and a default, so they are optional here. -/
structure Tick where
  instrument_token : Nat
  last_price : Option ℚ
  volume_traded : Option Nat
  total_buy_quantity : Option Nat
  total_sell_quantity : Option Nat
deriving DecidableEq, Repr

/-- One entry of `tick_store` (kite_manual.py lines 47-52, kite_ws1.py
lines 37-42): `ltp` and `volume` start as None, the two quantity windows
are deques with maxlen ROLLING_WINDOW, held oldest first. -/
structure InstrumentState where
  ltp : Option ℚ
  volume : Option Nat
  buy_qty : List Nat
  sell_qty : List Nat
deriving DecidableEq, Repr

/-- Default value produced by the `defaultdict` factory of `tick_store`. -/
def emptyState : InstrumentState :=
  { ltp := none, volume := none, buy_qty := [], sell_qty := [] }

/-- deque(maxlen == cap).append: append on the right, evicting from the left
whenever the deque is already at capacity. -/
def dequePush (cap : Nat) (w : List Nat) (x : Nat) : List Nat :=
  if w.length < cap then w ++ [x] else (w ++ [x]).drop (w.length + 1 - cap)

/-- The in-memory store: the insertion-ordered dict `tick_store`,
as an association list keyed by instrument token. -/
abbrev Store : Type := List (Nat × InstrumentState)

/-- Body of the per-tick update in `on_ticks` (kite_manual.py lines
160-165, kite_ws1.py lines 123-128): overwrite ltp and volume with the
tick values (defaults 0.0 and 0), push the buy and sell quantities
(default 0) into their windows. -/
def applyTick (s : InstrumentState) (t : Tick) : InstrumentState :=
  { ltp := some (t.last_price.getD 0),
    volume := some (t.volume_traded.getD 0),
    buy_qty := dequePush ROLLING_WINDOW s.buy_qty (t.total_buy_quantity.getD 0),
    sell_qty := dequePush ROLLING_WINDOW s.sell_qty (t.total_sell_quantity.getD 0) }

/-- Update of `tick_store[token]` for one tick: the defaultdict lookup
creates the entry on first use, then `applyTick` mutates it in place. -/
def ingestStore (t : Tick) : Store → Store
  | [] => [(t.instrument_token, applyTick emptyState t)]
  | p :: rest =>
    if p.1 = t.instrument_token then (p.1, applyTick p.2 t) :: rest
    else p :: ingestStore t rest

/-- Ingestion of a whole sequence of ticks into an initially empty store,
as performed by `on_ticks` of kite_manual.py / kite_ws1.py (no token
filter). -/
def ingestAll (ts : List Tick) : Store :=
  ts.foldl (fun s t => ingestStore t s) []

/-- Per-tick update of kite_ws.py `on_ticks` (lines 86-93): a tick whose
token is not in the subscribed TOKENS list is skipped before touching the
store. -/
def ingestStoreWs (tokens : List Nat) (t : Tick) (store : Store) : Store :=
  if tokens.contains t.instrument_token then ingestStore t store else store

/-- The market phase enumeration of the specification. -/
inductive Phase2 where
  | PRE
  | LIVE
  | POST
deriving DecidableEq, Repr

/-- market_phase of kite_ws1.py (lines 48-58), a pure function of the
wall-clock time of day. -/
def market_phase_ws1 (tod : Nat) : Phase2 :=
  if tod < WS1_START_S then Phase2.PRE
  else if tod < WS1_END_S then Phase2.LIVE
  else Phase2.POST

/-- is_market_open of kite_manual.py (lines 60-62): MARKET_START ≤ now < MARKET_END. -/
def is_market_open (tod : Nat) : Bool :=
  decide (MARKET_START_S ≤ tod) && decide (tod < MARKET_END_S)

/-- is_market_closed of kite_manual.py (lines 64-66): now ≥ MARKET_END. -/
def is_market_closed (tod : Nat) : Bool :=
  decide (MARKET_END_S ≤ tod)

/-- Effective session phase decided by the kite_manual.py driver loop
(lines 195-207) combined with the flush gate (line 73), in the order the
loop evaluates it: elapsed runtime at or above MAX_RUNTIME shuts down
(POST), then a clock at or past MARKET_END shuts down (POST), then a
clock inside the window permits writes (LIVE), otherwise the loop idles
before the session (PRE). -/
def driver_phase_manual (tod elapsed : Nat) : Phase2 :=
  if MAX_RUNTIME ≤ elapsed then Phase2.POST
  else if is_market_closed tod then Phase2.POST
  else if is_market_open tod then Phase2.LIVE
  else Phase2.PRE

/-- Rolling average as computed inside the flush loops (kite_manual.py
lines 93-100, kite_ws1.py lines 81-88, kite_ws.py lines 119-120):
round(sum(window) / len(window), 2) when the window is non-empty, 0
otherwise. -/
def windowAvg (w : List Nat) : ℚ :=
  if w.length = 0 then 0 else pyRound2 ((w.sum : ℚ) / (w.length : ℚ))

/-- Modelled from the spec: the rolling-average formula of spec sections
3 and 4.1, avg = round(sum(window) / len(window), 2), or 0 if the window
is empty, stated over the window of at most the last N pushed values. -/
def avgSpec (w : List Nat) : ℚ :=
  if w.length = 0 then 0 else pyRound2 ((w.sum : ℚ) / (w.length : ℚ))

/-- Suffix of the last at most cap elements of a list. -/
def lastN (cap : Nat) (l : List Nat) : List Nat :=
  l.drop (l.length - cap)

/-- Fixed head of the CREATE TABLE statement built at kite_manual.py
lines 105-113 and kite_ws1.py lines 93-101, up to and including the
opening identifier quote. -/
def createHead : String := "CREATE TABLE IF NOT EXISTS \""

/-- Fixed remainder of the CREATE TABLE statement after the closing
identifier quote (column clause, whitespace normalised). -/
def createTail : String :=
  " (timestamp TEXT, ltp REAL, volume INTEGER, avg_buy_qty REAL, avg_sell_qty REAL)"

/-- CREATE TABLE statement of kite_manual.py lines 105-113 and
kite_ws1.py lines 93-101: the table name is interpolated between two
double-quote characters with no further processing. -/
def createStmt (table_name : String) : String :=
  createHead ++ table_name ++ "\"" ++ createTail

/-- Fixed head of the INSERT statement of kite_manual.py line 116 and
kite_ws1.py line 104, up to and including the opening identifier quote. -/
def insertHead : String := "INSERT INTO \""

/-- Fixed remainder of the INSERT statement after the closing identifier
quote. -/
def insertTail : String := " VALUES (?, ?, ?, ?, ?)"

/-- INSERT statement of kite_manual.py line 116 and kite_ws1.py line
104: the table name is interpolated between two double-quote characters
with no further processing. -/
def insertStmt (table_name : String) : String :=
  insertHead ++ table_name ++ "\"" ++ insertTail

/-- CREATE TABLE statement of kite_ws.py lines 57-65: the table name is
interpolated with no quoting at all (names there are always of the shape
stock_token). -/
def createStmtWs (table_name : String) : String :=
  "CREATE TABLE IF NOT EXISTS " ++ table_name ++ createTail

/-- INSERT statement of kite_ws.py line 68, unquoted table name. -/
def insertStmtWs (table_name : String) : String :=
  "INSERT INTO " ++ table_name ++ insertTail

/-- SQLite lexer for the body of a double-quoted identifier, entered just
after the opening quote: a doubled quote stands for one literal quote
character, a single quote ends the identifier; returns the identifier
text and the rest of the statement, or none if the quote is never
closed. -/
def scanQuotedIdent : List Char → Option (List Char × List Char)
  | [] => none
  | c :: rest =>
    if c = '"' then
      match rest with
      | c2 :: rest2 =>
        if c2 = '"' then (scanQuotedIdent rest2).map (fun p => ('"' :: p.1, p.2))
        else some ([], c2 :: rest2)
      | [] => some ([], [])
    else
      (scanQuotedIdent rest).map (fun p => (c :: p.1, p.2))

/-- Parse a CREATE TABLE statement of the shape built by `createStmt`:
check the fixed head, then lex the double-quoted identifier, returning
the identifier the storage engine would use and the remaining statement
text. -/
def parseCreateStmt (stmt : String) : Option (String × String) :=
  if stmt.toList.take createHead.toList.length = createHead.toList then
    (scanQuotedIdent (stmt.toList.drop createHead.toList.length)).map
      (fun p => (String.mk p.1, String.mk p.2))
  else none

/-- Parse an INSERT statement of the shape built by `insertStmt`. -/
def parseInsertStmt (stmt : String) : Option (String × String) :=
  if stmt.toList.take insertHead.toList.length = insertHead.toList then
    (scanQuotedIdent (stmt.toList.drop insertHead.toList.length)).map
      (fun p => (String.mk p.1, String.mk p.2))
  else none

/-- One row as bound to the INSERT placeholders (timestamp omitted:
no claim concerns it). -/
structure Row where
  table : String
  ltp : ℚ
  volume : Nat
  avg_buy : ℚ
  avg_sell : ℚ
deriving DecidableEq, Repr

/-- Row built for one store entry with price set. -/
def mkRow (table : String) (price : ℚ) (st : InstrumentState) : Row :=
  { table := table, ltp := price, volume := st.volume.getD 0,
    avg_buy := windowAvg st.buy_qty, avg_sell := windowAvg st.sell_qty }

/-- One operation issued to the sqlite connection. -/
inductive DbOp where
  | execCreate (stmt : String)
  | execInsert (stmt : String) (row : Row)
  | commit
deriving DecidableEq, Repr

/-- Check for the commit operation. -/
def isCommit : DbOp → Bool
  | DbOp.commit => true
  | _ => false

/-- Number of commits in an operation trace. -/
def commitCount (ops : List DbOp) : Nat :=
  (ops.filter isCommit).length

/-- Rows carried by the insert operations of a trace. -/
def insertedRows (ops : List DbOp) : List Row :=
  ops.filterMap (fun op =>
    match op with
    | DbOp.execInsert _ r => some r
    | _ => none)

/-- Transactional semantics of a trace prefix: inserts stay pending until
a commit makes them durable; a trace that ends (connection dropped or
error raised) with pending inserts loses them, and a commit never
removes rows that are already durable. -/
def durableAux : List DbOp → List Row → List Row → List Row
  | [], _, durable => durable
  | DbOp.commit :: rest, pending, durable => durableAux rest [] (durable ++ pending)
  | DbOp.execInsert _ r :: rest, pending, durable => durableAux rest (pending ++ [r]) durable
  | DbOp.execCreate _ :: rest, pending, durable => durableAux rest pending durable

/-- Rows durable after executing a trace from an empty transaction. -/
def durableRows (ops : List DbOp) : List Row :=
  durableAux ops [] []

/-- Store entries the flush loop will emit a row for: price already set
(kite_manual.py lines 89-91, kite_ws1.py lines 77-79, kite_ws.py lines
116-118 skip entries whose ltp is None). -/
def snapshotTokens (store : Store) : Store :=
  store.filter (fun p => p.2.ltp.isSome)

/-- Per-row operations of the flush loop of kite_manual.py lines 89-118:
table name from token_to_symbol.get(token, str(token)), one CREATE TABLE
IF NOT EXISTS and one INSERT per entry with price set, no commit inside
the loop. -/
def manualRowOps (tmap : List (Nat × String)) : Store → List DbOp
  | [] => []
  | p :: rest =>
    match p.2.ltp with
    | none => manualRowOps tmap rest
    | some price =>
      let table := (tmap.lookup p.1).getD (toString p.1)
      DbOp.execCreate (createStmt table) ::
        DbOp.execInsert (insertStmt table) (mkRow table price p.2) ::
          manualRowOps tmap rest

/-- save_to_db_batch of kite_manual.py (lines 69-123). Inputs: the
token-symbol map, the store, the wall-clock time of day (for
is_market_open), the current time.time() value, the current
last_save_time, and the force flag. Returns the new last_save_time and
the operation trace sent to the connection. Gate order is that of the
source: phase gate, rate gate, update of last_save_time, empty-store
check, then the row loop and one final commit. -/
def save_to_db_batch_manual (tmap : List (Nat × String)) (store : Store)
    (tod now lastSave : Nat) (force : Bool) : Nat × List DbOp :=
  if !force && !is_market_open tod then (lastSave, [])
  else if !force && decide (now - lastSave < SAVE_INTERVAL) then (lastSave, [])
  else if store.isEmpty then (now, [])
  else (now, manualRowOps tmap store ++ [DbOp.commit])

/-- Per-row operations of the flush loop of kite_ws1.py lines 77-106:
table name from the direct dictionary index token_to_symbol[token],
which raises KeyError when the token is not in the loaded universe. -/
def ws1RowOps (tmap : List (Nat × String)) : Store → Except String (List DbOp)
  | [] => Except.ok []
  | p :: rest =>
    match p.2.ltp with
    | none => ws1RowOps tmap rest
    | some price =>
      match tmap.lookup p.1 with
      | none => Except.error (toString p.1)
      | some table =>
        (ws1RowOps tmap rest).map (fun ops =>
          DbOp.execCreate (createStmt table) ::
            DbOp.execInsert (insertStmt table) (mkRow table price p.2) :: ops)

/-- save_to_db_batch of kite_ws1.py (lines 61-111). The function has no
phase gate: only the rate gate, the update of last_save_time, the
empty-store check, the row loop and one final commit. last_save_time is
assigned before the row loop runs, so it is returned updated even when a
row lookup raises. -/
def save_to_db_batch_ws1 (tmap : List (Nat × String)) (store : Store)
    (now lastSave : Nat) (force : Bool) : Nat × Except String (List DbOp) :=
  if !force && decide (now - lastSave < SAVE_INTERVAL) then (lastSave, Except.ok [])
  else if store.isEmpty then (now, Except.ok [])
  else (now, (ws1RowOps tmap store).map (fun ops => ops ++ [DbOp.commit]))

/-- Per-row operations of kite_ws.py periodic_save (lines 108-128): for
every entry with price set, save_to_db (lines 53-72) opens its own
connection, creates the table stock_token, inserts one row and commits
immediately, so the commit sits inside the loop. -/
def wsRowOps : Store → List DbOp
  | [] => []
  | p :: rest =>
    match p.2.ltp with
    | none => wsRowOps rest
    | some price =>
      let table := "stock_" ++ toString p.1
      DbOp.execCreate (createStmtWs table) ::
        DbOp.execInsert (insertStmtWs table) (mkRow table price p.2) ::
          DbOp.commit ::
            wsRowOps rest

/-- periodic_save of kite_ws.py (lines 108-128): rate gate, update of
last_save_time, then one save_to_db call (with its own commit) per entry
with price set. -/
def periodic_save_ws (store : Store) (now lastSave : Nat) : Nat × List DbOp :=
  if decide (now - lastSave < SAVE_INTERVAL) then (lastSave, [])
  else (now, wsRowOps store)

/-- Projection of an Except trace result to its operation list. -/
def okOps : Except String (List DbOp) → List DbOp
  | Except.ok l => l
  | Except.error _ => []

/-- Check whether a trace result is an error. -/
def isErr : Except String (List DbOp) → Bool
  | Except.ok _ => false
  | Except.error _ => true

/-- Error payload of a trace result, if any. -/
def errMsg : Except String (List DbOp) → Option String
  | Except.ok _ => none
  | Except.error e => some e

/-- Observable steps of graceful_shutdown in kite_manual.py (lines
126-142), in source order: the forced flush, the feed close, setting
shutdown_event, and sys.exit. The body reads no guard before flushing:
shutdown_event is only assigned, never tested, inside this function. -/
inductive ShutAction where
  | flushForced
  | closeFeed
  | setEvent
  | exitProc
deriving DecidableEq, Repr

/-- Step sequence of one graceful_shutdown invocation. -/
def gracefulShutdownBody : List ShutAction :=
  [ShutAction.flushForced, ShutAction.closeFeed, ShutAction.setEvent, ShutAction.exitProc]

/-- Steps executed when a second trigger (signal or fatal error) arrives
after the first graceful_shutdown has completed k of its steps: the
handler re-enters graceful_shutdown, whose body runs unconditionally to
its own sys.exit, which terminates the process before the remaining
steps of the first invocation. -/
def traceTwoTriggers (k : Nat) : List ShutAction :=
  gracefulShutdownBody.take k ++ gracefulShutdownBody

/-- Number of forced flushes in a shutdown trace. -/
def countFlush (tr : List ShutAction) : Nat :=
  (tr.filter (fun a => a = ShutAction.flushForced)).length

/-- Number of feed-close calls in a shutdown trace. -/
def countClose (tr : List ShutAction) : Nat :=
  (tr.filter (fun a => a = ShutAction.closeFeed)).length

/-- Concrete one-entry token universe used for evaluations: the RELIANCE
token listed in kite_ws.py line 19. -/
def tmap0 : List (Nat × String) := [(738561, "RELIANCE")]

/-- Concrete instrument state with price set. -/
def stA : InstrumentState :=
  { ltp := some 100, volume := some 50, buy_qty := [10], sell_qty := [20] }

/-- Concrete one-instrument store. -/
def store0 : Store := [(738561, stA)]

/-- Concrete two-instrument store. -/
def storePair : Store := [(1, stA), (2, stA)]

/-- Concrete adversarial symbol containing a double-quote character. -/
def symBad : String := "A\"B"

/-- Concrete symbol containing a hyphen and a space. -/
def symGood : String := "TATA-MOTORS A"

/-- Concrete tick whose token 999 is outside the loaded universe `tmap0`. -/
def tick999 : Tick :=
  { instrument_token := 999, last_price := some 5, volume_traded := none,
    total_buy_quantity := some 1, total_sell_quantity := none }

/-! Helper lemmas. -/

theorem mk_toList (s : String) : String.mk s.toList = s := by
  cases s
  rfl

theorem scanQuotedIdent_no_quote (s rest : List Char) (hs : '"' ∉ s)
    (hr : ∀ r, rest ≠ '"' :: r) :
    scanQuotedIdent (s ++ '"' :: rest) = some (s, rest) := by
  induction s with
  | nil =>
    cases rest with
    | nil => rfl
    | cons c2 r2 =>
      have hc2 : c2 ≠ '"' := fun h => hr r2 (by rw [h])
      simp [scanQuotedIdent, hc2]
  | cons c cs ih =>
    have hc : c ≠ '"' := fun h => hs (h ▸ List.mem_cons_self c cs)
    have hcs : '"' ∉ cs := fun h => hs (List.mem_cons_of_mem c h)
    rw [List.cons_append, scanQuotedIdent.eq_def]
    simp [hc, ih hcs]

theorem toList_createStmt (sym : String) :
    (createStmt sym).toList =
      createHead.toList ++ (sym.toList ++ '"' :: createTail.toList) := by
  simp [createStmt, String.toList, String.data_append]

theorem toList_insertStmt (sym : String) :
    (insertStmt sym).toList =
      insertHead.toList ++ (sym.toList ++ '"' :: insertTail.toList) := by
  simp [insertStmt, String.toList, String.data_append]

theorem parseCreateStmt_roundtrip (sym : String) (h : '"' ∉ sym.toList) :
    parseCreateStmt (createStmt sym) = some (sym, createTail) := by
  have htail : ∀ r, createTail.toList ≠ '"' :: r := by
    intro r hcontra
    have h1 : createTail.toList.head? = some '"' := by rw [hcontra]; rfl
    have h2 : createTail.toList.head? = some ' ' := by decide
    rw [h2] at h1
    simp at h1
  unfold parseCreateStmt
  rw [toList_createStmt, List.take_left, List.drop_left, if_pos rfl]
  rw [scanQuotedIdent_no_quote sym.toList createTail.toList h htail]
  simp [mk_toList]

theorem parseInsertStmt_roundtrip (sym : String) (h : '"' ∉ sym.toList) :
    parseInsertStmt (insertStmt sym) = some (sym, insertTail) := by
  have htail : ∀ r, insertTail.toList ≠ '"' :: r := by
    intro r hcontra
    have h1 : insertTail.toList.head? = some '"' := by rw [hcontra]; rfl
    have h2 : insertTail.toList.head? = some ' ' := by decide
    rw [h2] at h1
    simp at h1
  unfold parseInsertStmt
  rw [toList_insertStmt, List.take_left, List.drop_left, if_pos rfl]
  rw [scanQuotedIdent_no_quote sym.toList insertTail.toList h htail]
  simp [mk_toList]

/-! Claim theorems. -/

/-- C1 counterexample. The claim asserts that for every symbol, including
symbols containing quote characters, the interpolated table name cannot
alter the structure of the executed statement. For the symbol A"B the
statement built by save_to_db_batch (kite_manual.py lines 105-118,
kite_ws1.py lines 93-106) is lexed by the storage engine as the
identifier A followed by the residual text of the symbol spliced into the
statement body: the quote character escapes the identifier context. -/
theorem C1_counterexample :
    parseCreateStmt (createStmt symBad) ≠ some (symBad, createTail) ∧
    parseCreateStmt (createStmt symBad) = some ("A", "B\"" ++ createTail) := by
  constructor
  · decide
  · decide

/-- C1, amended. Symbols are interpolated between double quotes with no
sanitization or escaping; for every symbol free of the double-quote
character (in particular symbols containing spaces or hyphens) the
CREATE TABLE and INSERT statements are well formed, the identifier the
storage engine reads back is exactly the symbol (so distinct symbols
yield distinct, uniquely identifiable tables), and the remaining
statement text is the fixed clause; symbols containing a double quote
alter statement structure (see the counterexample). -/
theorem C1_theorem : ∀ sym : String, '"' ∉ sym.toList →
    parseCreateStmt (createStmt sym) = some (sym, createTail) ∧
    parseInsertStmt (insertStmt sym) = some (sym, insertTail) ∧
    (∀ sym2 : String, createStmt sym = createStmt sym2 → sym = sym2) := by
  intro sym h
  refine ⟨parseCreateStmt_roundtrip sym h, parseInsertStmt_roundtrip sym h, ?_⟩
  intro sym2 heq
  have h1 := congrArg String.toList heq
  rw [toList_createStmt, toList_createStmt] at h1
  have h2 := List.append_cancel_left h1
  have h3 := List.append_cancel_right h2
  exact String.ext h3

/-- C1 witness: a symbol containing both a hyphen and a space round-trips
to exactly itself as the table identifier. -/
theorem C1_witness :
    ('"' ∉ symGood.toList) ∧
    parseCreateStmt (createStmt symGood) = some (symGood, createTail) := by
  exact ⟨by decide, (C1_theorem symGood (by decide)).1⟩

/-- C2 counterexample. The claim asserts exactly one forced flush when a
second termination trigger arrives while shutdown is in progress. In
graceful_shutdown (kite_manual.py lines 126-148) no latch guards entry:
shutdown_event is set only after the flush and is never tested, and the
signal handlers stay installed, so a second signal arriving right after
the first forced flush re-enters graceful_shutdown and flushes again,
giving two forced flushes. -/
theorem C2_counterexample : countFlush (traceTwoTriggers 1) = 2 := by decide

/-- C2, amended. A single shutdown trigger performs exactly one forced
flush and one feed-close; but the transition is not idempotent: a second
trigger arriving at any point while the first graceful_shutdown is still
running (after its flush and before its exit) results in two forced
flushes, because no single-use latch guards entry. -/
theorem C2_theorem :
    countFlush gracefulShutdownBody = 1 ∧
    countClose gracefulShutdownBody = 1 ∧
    (∀ k, 1 ≤ k → k ≤ 3 → countFlush (traceTwoTriggers k) = 2) := by
  refine ⟨by decide, by decide, ?_⟩
  intro k h1 h3
  interval_cases k <;> decide

/-- C2 witness: a second trigger arriving after the feed close of the
first invocation still causes a second forced flush. -/
theorem C2_witness : countFlush (traceTwoTriggers 2) = 2 :=
  C2_theorem.2.2 2 (by decide) (by decide)

/-- C3 counterexample. The claim asserts that the phase is PRE whenever
the clock is before session start. In kite_manual.py the driver loop
(lines 195-207) checks elapsed runtime before anything else, so with the
clock before 9:15 but elapsed runtime at MAX_RUNTIME the process shuts
down (POST), not PRE. -/
theorem C3_counterexample :
    driver_phase_manual 0 MAX_RUNTIME = Phase2.POST ∧
    (0 : Nat) < MARKET_START_S ∧ Phase2.POST ≠ Phase2.PRE := by decide

/-- C3, amended. The runtime safety net dominates every clock clause:
the phase is POST whenever elapsed runtime reaches MAX_RUNTIME, even
before session start; PRE holds before session start only while elapsed
runtime is below MAX_RUNTIME; inside the half-open window (start
inclusive, end exclusive) the phase is LIVE unless runtime forces POST;
at or after session end it is POST. The kite_ws1 market_phase
implements only the clock clauses over its own 9:15-12:00 window (it
has no runtime input). -/
theorem C3_theorem : ∀ tod elapsed : Nat,
    (tod < MARKET_START_S → elapsed < MAX_RUNTIME →
      driver_phase_manual tod elapsed = Phase2.PRE) ∧
    (MARKET_START_S ≤ tod → tod < MARKET_END_S → elapsed < MAX_RUNTIME →
      driver_phase_manual tod elapsed = Phase2.LIVE) ∧
    (MARKET_START_S ≤ tod → tod < MARKET_END_S → MAX_RUNTIME ≤ elapsed →
      driver_phase_manual tod elapsed = Phase2.POST) ∧
    (MARKET_END_S ≤ tod → driver_phase_manual tod elapsed = Phase2.POST) ∧
    (MAX_RUNTIME ≤ elapsed → driver_phase_manual tod elapsed = Phase2.POST) ∧
    (tod < WS1_START_S → market_phase_ws1 tod = Phase2.PRE) ∧
    (WS1_START_S ≤ tod → tod < WS1_END_S → market_phase_ws1 tod = Phase2.LIVE) ∧
    (WS1_END_S ≤ tod → market_phase_ws1 tod = Phase2.POST) := by
  intro tod elapsed
  unfold driver_phase_manual market_phase_ws1 is_market_open is_market_closed
  unfold MARKET_START_S MARKET_END_S MAX_RUNTIME WS1_START_S WS1_END_S
  refine ⟨?_, ?_, ?_, ?_, ?_, ?_, ?_, ?_⟩ <;> intros <;> split_ifs <;>
    (try rfl) <;> exfalso <;>
    simp only [Bool.and_eq_true, decide_eq_true_eq, Bool.not_eq_true,
      Bool.and_eq_false_iff, decide_eq_false_iff_not] at * <;> omega

/-- C3 witness: inside the window with runtime not exceeded the phase is
LIVE for both variants. -/
theorem C3_witness :
    driver_phase_manual 40000 0 = Phase2.LIVE ∧ market_phase_ws1 40000 = Phase2.LIVE :=
  ⟨(C3_theorem 40000 0).2.1 (by decide) (by decide) (by decide),
   (C3_theorem 40000 0).2.2.2.2.2.2.1 (by decide) (by decide)⟩

theorem insertedRows_nil : insertedRows [] = [] := rfl

theorem insertedRows_create (s : String) (rest : List DbOp) :
    insertedRows (DbOp.execCreate s :: rest) = insertedRows rest := rfl

theorem insertedRows_insert (s : String) (r : Row) (rest : List DbOp) :
    insertedRows (DbOp.execInsert s r :: rest) = r :: insertedRows rest := rfl

theorem insertedRows_commit (rest : List DbOp) :
    insertedRows (DbOp.commit :: rest) = insertedRows rest := rfl

theorem insertedRows_append (a b : List DbOp) :
    insertedRows (a ++ b) = insertedRows a ++ insertedRows b := by
  simp [insertedRows, List.filterMap_append]

theorem commitCount_nil : commitCount [] = 0 := rfl

theorem commitCount_create (s : String) (rest : List DbOp) :
    commitCount (DbOp.execCreate s :: rest) = commitCount rest := rfl

theorem commitCount_insert (s : String) (r : Row) (rest : List DbOp) :
    commitCount (DbOp.execInsert s r :: rest) = commitCount rest := rfl

theorem commitCount_commit (rest : List DbOp) :
    commitCount (DbOp.commit :: rest) = commitCount rest + 1 := by
  simp [commitCount, isCommit, List.filter_cons]

theorem durableAux_no_commit (ops : List DbOp) (pending durable : List Row)
    (h : ∀ op ∈ ops, isCommit op = false) :
    durableAux ops pending durable = durable := by
  induction ops generalizing pending with
  | nil => rfl
  | cons op rest ih =>
    cases op with
    | execCreate s => exact ih pending (fun o ho => h o (List.mem_cons_of_mem _ ho))
    | execInsert s r => exact ih (pending ++ [r]) (fun o ho => h o (List.mem_cons_of_mem _ ho))
    | commit =>
      have hcommit := h DbOp.commit (List.mem_cons_self _ _)
      simp [isCommit] at hcommit

theorem durableAux_append_commit (ops : List DbOp) (pending durable : List Row)
    (h : ∀ op ∈ ops, isCommit op = false) :
    durableAux (ops ++ [DbOp.commit]) pending durable =
      durable ++ pending ++ insertedRows ops := by
  induction ops generalizing pending durable with
  | nil => simp [durableAux, insertedRows]
  | cons op rest ih =>
    cases op with
    | execCreate s =>
      rw [List.cons_append]
      rw [show durableAux (DbOp.execCreate s :: (rest ++ [DbOp.commit])) pending durable =
            durableAux (rest ++ [DbOp.commit]) pending durable from rfl]
      rw [ih pending durable (fun o ho => h o (List.mem_cons_of_mem _ ho)),
        insertedRows_create]
    | execInsert s r =>
      rw [List.cons_append]
      rw [show durableAux (DbOp.execInsert s r :: (rest ++ [DbOp.commit])) pending durable =
            durableAux (rest ++ [DbOp.commit]) (pending ++ [r]) durable from rfl]
      rw [ih (pending ++ [r]) durable (fun o ho => h o (List.mem_cons_of_mem _ ho)),
        insertedRows_insert]
      simp
    | commit =>
      have hcommit := h DbOp.commit (List.mem_cons_self _ _)
      simp [isCommit] at hcommit

theorem durableRows_no_commit (ops : List DbOp)
    (h : ∀ op ∈ ops, isCommit op = false) : durableRows ops = [] :=
  durableAux_no_commit ops [] [] h

theorem durableRows_append_commit (ops : List DbOp)
    (h : ∀ op ∈ ops, isCommit op = false) :
    durableRows (ops ++ [DbOp.commit]) = insertedRows ops := by
  rw [durableRows, durableAux_append_commit ops [] [] h]
  simp

theorem manualRowOps_no_commit (tmap : List (Nat × String)) (store : Store) :
    ∀ op ∈ manualRowOps tmap store, isCommit op = false := by
  induction store with
  | nil => intro op h; simp [manualRowOps] at h
  | cons p rest ih =>
    intro op h
    cases hltp : p.2.ltp with
    | none =>
      rw [manualRowOps.eq_def] at h
      simp only [hltp] at h
      exact ih op h
    | some price =>
      rw [manualRowOps.eq_def] at h
      simp only [hltp, List.mem_cons] at h
      rcases h with h | h | h
      · rw [h]; rfl
      · rw [h]; rfl
      · exact ih op h

theorem ws1RowOps_no_commit (tmap : List (Nat × String)) (store : Store)
    (l : List DbOp) (hok : ws1RowOps tmap store = Except.ok l) :
    ∀ op ∈ l, isCommit op = false := by
  induction store generalizing l with
  | nil =>
    intro op h
    rw [ws1RowOps] at hok
    cases hok
    simp at h
  | cons p rest ih =>
    intro op h
    rw [ws1RowOps.eq_def] at hok
    cases hltp : p.2.ltp with
    | none =>
      simp only [hltp] at hok
      exact ih l hok op h
    | some price =>
      simp only [hltp] at hok
      cases hlook : tmap.lookup p.1 with
      | none => simp only [hlook] at hok; cases hok
      | some table =>
        simp only [hlook] at hok
        cases hrest : ws1RowOps tmap rest with
        | error e => rw [hrest] at hok; cases hok
        | ok lrest =>
          rw [hrest] at hok
          simp only [Except.map] at hok
          cases hok
          simp only [List.mem_cons] at h
          rcases h with h | h | h
          · rw [h]; rfl
          · rw [h]; rfl
          · exact ih lrest hrest op h


theorem snapshotTokens_cons_some (p : Nat × InstrumentState) (rest : Store)
    (h : p.2.ltp.isSome = true) :
    snapshotTokens (p :: rest) = p :: snapshotTokens rest := by
  simp [snapshotTokens, List.filter_cons, h]

theorem snapshotTokens_cons_none (p : Nat × InstrumentState) (rest : Store)
    (h : p.2.ltp = none) :
    snapshotTokens (p :: rest) = snapshotTokens rest := by
  simp [snapshotTokens, List.filter_cons, h]

theorem wsRowOps_commitCount (store : Store) :
    commitCount (wsRowOps store) = (snapshotTokens store).length := by
  induction store with
  | nil => rfl
  | cons p rest ih =>
    cases hltp : p.2.ltp with
    | none =>
      rw [wsRowOps.eq_def]
      simp only [hltp]
      rw [ih, snapshotTokens_cons_none p rest hltp]
    | some price =>
      rw [wsRowOps.eq_def]
      simp only [hltp]
      rw [commitCount_create, commitCount_insert, commitCount_commit, ih,
        snapshotTokens_cons_some p rest (by simp [hltp]), List.length_cons]

theorem manual_flush_ops_cases (tmap : List (Nat × String)) (store : Store)
    (tod now ls : Nat) (force : Bool) :
    (save_to_db_batch_manual tmap store tod now ls force).2 = [] ∨
    (save_to_db_batch_manual tmap store tod now ls force).2 =
      manualRowOps tmap store ++ [DbOp.commit] := by
  unfold save_to_db_batch_manual
  split_ifs <;> simp

theorem single_commit_trace_props (ops : List DbOp)
    (h : ∀ op ∈ ops, isCommit op = false) :
    commitCount (ops ++ [DbOp.commit]) = 1 ∧
    (∀ k, k < (ops ++ [DbOp.commit]).length →
      durableRows ((ops ++ [DbOp.commit]).take k) = []) ∧
    durableRows (ops ++ [DbOp.commit]) = insertedRows (ops ++ [DbOp.commit]) := by
  refine ⟨?_, ?_, ?_⟩
  · have hfil : ops.filter isCommit = [] := by
      rw [List.filter_eq_nil_iff]
      intro a ha
      rw [h a ha]
      simp
    simp [commitCount, List.filter_cons, List.filter_append, hfil, isCommit]
  · intro k hk
    rw [List.length_append, List.length_cons, List.length_nil] at hk
    have hk2 : k <= ops.length := by omega
    rw [List.take_append_of_le_length hk2]
    exact durableRows_no_commit _ (fun o ho => h o (List.take_subset k ops ho))
  · rw [durableRows_append_commit ops h, insertedRows_append]
    simp [insertedRows]

/-- C4 counterexample. The claim quantifies over every flush, including
the kite_ws.py variant (periodic_save with save_to_db): there each row is
written on its own connection with its own commit, so a flush of a
two-instrument store performs two commits, and a failure after the first
commit (modelled by truncating the operation trace) leaves exactly one
row durable: neither the whole batch nor nothing, so the whole batch is
not rolled back. -/
theorem C4_counterexample :
    commitCount (periodic_save_ws storePair 100 0).2 = 2 ∧
    (durableRows ((periodic_save_ws storePair 100 0).2.take 4)).length = 1 ∧
    (durableRows (periodic_save_ws storePair 100 0).2).length = 2 := by
  refine ⟨by decide, by decide, by decide⟩

/-- C4, amended. The batch variants write transactionally: in
kite_manual.py and kite_ws1.py a flush executes at most one commit,
placed after all rows, so interrupting the trace at any point before its
end leaves nothing of the batch durable (prior committed data is never
touched: the semantics only ever appends at a commit), and the full
trace makes exactly the inserted rows durable. The kite_ws.py variant
instead commits once per snapshot row, so a mid-flush failure keeps the
rows committed so far (see the counterexample). -/
theorem C4_theorem :
    (∀ tmap store tod now ls force,
      commitCount (save_to_db_batch_manual tmap store tod now ls force).2 ≤ 1 ∧
      (∀ k, k < (save_to_db_batch_manual tmap store tod now ls force).2.length →
        durableRows ((save_to_db_batch_manual tmap store tod now ls force).2.take k) = []) ∧
      durableRows (save_to_db_batch_manual tmap store tod now ls force).2 =
        insertedRows (save_to_db_batch_manual tmap store tod now ls force).2) ∧
    (∀ tmap store now ls force ops,
      (save_to_db_batch_ws1 tmap store now ls force).2 = Except.ok ops →
      commitCount ops ≤ 1 ∧
      (∀ k, k < ops.length → durableRows (ops.take k) = []) ∧
      durableRows ops = insertedRows ops) ∧
    (∀ store now ls, now - ls ≥ SAVE_INTERVAL →
      commitCount (periodic_save_ws store now ls).2 = (snapshotTokens store).length) := by
  refine ⟨?_, ?_, ?_⟩
  · intro tmap store tod now ls force
    rcases manual_flush_ops_cases tmap store tod now ls force with hops | hops <;> rw [hops]
    · refine ⟨by decide, ?_, by decide⟩
      intro k hk
      simp at hk
    · have hp := single_commit_trace_props _ (manualRowOps_no_commit tmap store)
      exact ⟨le_of_eq hp.1, hp.2.1, hp.2.2⟩
  · intro tmap store now ls force ops hok
    unfold save_to_db_batch_ws1 at hok
    split_ifs at hok
    · cases hok
      refine ⟨by decide, ?_, by decide⟩
      intro k hk
      simp at hk
    · cases hok
      refine ⟨by decide, ?_, by decide⟩
      intro k hk
      simp at hk
    · cases hrow : ws1RowOps tmap store with
      | error e => rw [hrow] at hok; cases hok
      | ok l =>
        rw [hrow] at hok
        simp only [Except.map] at hok
        cases hok
        have hp := single_commit_trace_props l (ws1RowOps_no_commit tmap store l hrow)
        exact ⟨le_of_eq hp.1, hp.2.1, hp.2.2⟩
  · intro store now ls hgate
    unfold periodic_save_ws
    rw [if_neg (by simp; omega)]
    exact wsRowOps_commitCount store

/-- C4 witness: for a concrete forced flush of the kite_manual variant,
truncating the trace one operation before its end leaves nothing
durable. -/
theorem C4_witness :
    (2 : Nat) < (save_to_db_batch_manual tmap0 store0 40000 100 0 true).2.length ∧
    durableRows ((save_to_db_batch_manual tmap0 store0 40000 100 0 true).2.take 2) = [] :=
  ⟨by decide, (C4_theorem.1 tmap0 store0 40000 100 0 true).2.1 2 (by decide)⟩


theorem manualRowOps_inserted_length (tmap : List (Nat × String)) (store : Store) :
    (insertedRows (manualRowOps tmap store)).length = (snapshotTokens store).length := by
  induction store with
  | nil => rfl
  | cons p rest ih =>
    cases hltp : p.2.ltp with
    | none =>
      rw [manualRowOps.eq_def]
      simp only [hltp]
      rw [ih, snapshotTokens_cons_none p rest hltp]
    | some price =>
      rw [manualRowOps.eq_def]
      simp only [hltp]
      rw [insertedRows_create, insertedRows_insert,
        snapshotTokens_cons_some p rest (by simp [hltp])]
      simp [ih]

theorem ws1RowOps_ok (tmap : List (Nat × String)) (store : Store)
    (h : ∀ p ∈ snapshotTokens store, (List.lookup p.1 tmap).isSome = true) :
    ∃ l, ws1RowOps tmap store = Except.ok l ∧
      (insertedRows l).length = (snapshotTokens store).length := by
  induction store with
  | nil => exact ⟨[], rfl, rfl⟩
  | cons p rest ih =>
    cases hltp : p.2.ltp with
    | none =>
      have hsnap := snapshotTokens_cons_none p rest hltp
      obtain ⟨l, hok, hlen⟩ := ih (fun q hq => h q (by rw [hsnap]; exact hq))
      refine ⟨l, ?_, by rw [hsnap]; exact hlen⟩
      rw [ws1RowOps.eq_def]
      simp only [hltp]
      exact hok
    | some price =>
      have hsnap := snapshotTokens_cons_some p rest (by simp [hltp])
      have hl := h p (by rw [hsnap]; exact List.mem_cons_self _ _)
      obtain ⟨table, htable⟩ := Option.isSome_iff_exists.mp hl
      obtain ⟨l, hok, hlen⟩ :=
        ih (fun q hq => h q (by rw [hsnap]; exact List.mem_cons_of_mem _ hq))
      refine ⟨DbOp.execCreate (createStmt table) ::
        DbOp.execInsert (insertStmt table) (mkRow table price p.2) :: l, ?_, ?_⟩
      · rw [ws1RowOps.eq_def]
        simp only [hltp, htable, hok, Except.map]
      · rw [insertedRows_create, insertedRows_insert, hsnap]
        simp [hlen]

/-- C5 counterexample. The claim asserts that a non-forced flush is a
no-op whenever the session phase is not LIVE. The kite_ws1
save_to_db_batch has no phase gate at all: here the clock reads a POST
phase (50000 s is past the 12:00 session end), yet a non-forced call
whose rate gate has elapsed both updates last_save_time and writes
rows. -/
theorem C5_counterexample :
    market_phase_ws1 50000 = Phase2.POST ∧
    (save_to_db_batch_ws1 tmap0 store0 25 0 false).1 = 25 ∧
    insertedRows (okOps (save_to_db_batch_ws1 tmap0 store0 25 0 false).2) ≠ [] := by
  refine ⟨by decide, by decide, by decide⟩

/-- C5, amended. A non-forced flush is a no-op (state unchanged, nothing
written) whenever elapsed time since the last attempt is below
SAVE_INTERVAL, in both batch variants; the kite_manual variant is
additionally a no-op whenever the wall clock is outside the 9:15-15:30
window; the kite_ws1 variant performs no phase check at all (its caller
alone decides when to invoke it), so phase ≠ LIVE does not by itself
make its flush a no-op (see the counterexample). -/
theorem C5_theorem :
    (∀ tmap store tod now ls, is_market_open tod = false →
      save_to_db_batch_manual tmap store tod now ls false = (ls, [])) ∧
    (∀ tmap store tod now ls, now - ls < SAVE_INTERVAL →
      save_to_db_batch_manual tmap store tod now ls false = (ls, [])) ∧
    (∀ tmap store now ls, now - ls < SAVE_INTERVAL →
      save_to_db_batch_ws1 tmap store now ls false = (ls, Except.ok [])) := by
  refine ⟨?_, ?_, ?_⟩
  · intro tmap store tod now ls h
    unfold save_to_db_batch_manual
    rw [if_pos (by simp [h])]
  · intro tmap store tod now ls h
    unfold save_to_db_batch_manual
    split_ifs <;> first | rfl | (exfalso; simp_all)
  · intro tmap store now ls h
    unfold save_to_db_batch_ws1
    split_ifs <;> first | rfl | (exfalso; simp_all)

/-- C5 witness: within the rate interval a non-forced kite_ws1 flush
leaves last_save_time unchanged and writes nothing. -/
theorem C5_witness :
    (100 : Nat) - 90 < SAVE_INTERVAL ∧
    save_to_db_batch_ws1 tmap0 store0 100 90 false = (90, Except.ok []) :=
  ⟨by decide, C5_theorem.2.2 tmap0 store0 100 90 (by decide)⟩

/-- C6, confirmed. A forced flush ignores the rate and phase inputs
entirely (its operation trace is the same function of the store whatever
the clock, the elapsed time and last_save_time are), and it writes rows
exactly when the snapshot (the store entries with a price set) is
non-empty: the inserted rows are in bijection with the snapshot entries.
For kite_ws1 this holds provided every snapshot token is in the loaded
universe (otherwise the flush raises, see C8). -/
theorem C6_theorem :
    (∀ tmap store tod now ls tod2 now2 ls2,
      (save_to_db_batch_manual tmap store tod now ls true).2 =
        (save_to_db_batch_manual tmap store tod2 now2 ls2 true).2) ∧
    (∀ tmap store tod now ls,
      (insertedRows (save_to_db_batch_manual tmap store tod now ls true).2).length =
        (snapshotTokens store).length ∧
      (insertedRows (save_to_db_batch_manual tmap store tod now ls true).2 ≠ [] ↔
        snapshotTokens store ≠ [])) ∧
    (∀ tmap store now ls now2 ls2,
      (save_to_db_batch_ws1 tmap store now ls true).2 =
        (save_to_db_batch_ws1 tmap store now2 ls2 true).2) ∧
    (∀ tmap store now ls,
      (∀ p ∈ snapshotTokens store, (List.lookup p.1 tmap).isSome = true) →
      ∃ ops, (save_to_db_batch_ws1 tmap store now ls true).2 = Except.ok ops ∧
        (insertedRows ops).length = (snapshotTokens store).length ∧
        (insertedRows ops ≠ [] ↔ snapshotTokens store ≠ [])) := by
  have hlen_ne : ∀ (a b : List Row) (sn : Store), a.length = sn.length → b = [] →
      ((a ++ b) ≠ [] ↔ sn ≠ []) := by
    intro a b sn hlen hb
    subst hb
    rw [List.append_nil]
    constructor
    · intro hne hsn
      rw [hsn, List.length_nil] at hlen
      exact hne (List.length_eq_zero.mp hlen)
    · intro hsn hne
      rw [hne, List.length_nil] at hlen
      exact hsn (List.length_eq_zero.mp hlen.symm)
  refine ⟨?_, ?_, ?_, ?_⟩
  · intro tmap store tod now ls tod2 now2 ls2
    unfold save_to_db_batch_manual
    simp only [Bool.not_true, Bool.false_and, Bool.and_self, if_false]
    split_ifs <;> rfl
  · intro tmap store tod now ls
    by_cases hstore : store = []
    · subst hstore
      exact ⟨rfl, by simp [save_to_db_batch_manual, snapshotTokens, insertedRows]⟩
    · have hne : store.isEmpty = false := by
        cases store with
        | nil => exact absurd rfl hstore
        | cons q qs => rfl
      have hops : (save_to_db_batch_manual tmap store tod now ls true).2 =
          manualRowOps tmap store ++ [DbOp.commit] := by
        unfold save_to_db_batch_manual
        simp [hne]
      rw [hops, insertedRows_append]
      have hcomm : insertedRows [DbOp.commit] = [] := rfl
      constructor
      · rw [hcomm, List.append_nil]
        exact manualRowOps_inserted_length tmap store
      · exact hlen_ne _ _ _ (manualRowOps_inserted_length tmap store) hcomm
  · intro tmap store now ls now2 ls2
    unfold save_to_db_batch_ws1
    simp only [Bool.not_true, Bool.false_and, if_false]
    split_ifs <;> rfl
  · intro tmap store now ls h
    by_cases hstore : store = []
    · subst hstore
      exact ⟨[], rfl, rfl, by simp [snapshotTokens, insertedRows]⟩
    · have hne : store.isEmpty = false := by
        cases store with
        | nil => exact absurd rfl hstore
        | cons q qs => rfl
      obtain ⟨l, hok, hlen⟩ := ws1RowOps_ok tmap store h
      refine ⟨l ++ [DbOp.commit], ?_, ?_, ?_⟩
      · unfold save_to_db_batch_ws1
        simp [hne, hok, Except.map]
      · rw [insertedRows_append]
        simp [hlen, show insertedRows [DbOp.commit] = [] from rfl]
      · rw [insertedRows_append]
        exact hlen_ne _ _ _ hlen rfl

/-- C6 witness: a concrete forced kite_ws1 flush with every snapshot
token in the universe writes exactly one row per snapshot entry. -/
theorem C6_witness :
    ∃ ops, (save_to_db_batch_ws1 tmap0 store0 77 76 true).2 = Except.ok ops ∧
      (insertedRows ops).length = (snapshotTokens store0).length ∧
      (insertedRows ops ≠ [] ↔ snapshotTokens store0 ≠ []) :=
  C6_theorem.2.2.2 tmap0 store0 77 76 (by decide)

/-- C9 counterexample. The claim asserts that lastFlushTime is updated
only on calls that pass the rate and phase gates. In kite_ws1 a
non-forced call made while the clock phase is POST (44000 s is past the
12:00 session end) but whose rate gate has elapsed still updates
last_save_time from 0 to 300: the phase gate plays no part. -/
theorem C9_counterexample :
    market_phase_ws1 44000 = Phase2.POST ∧
    (save_to_db_batch_ws1 tmap0 store0 300 0 false).1 = 300 ∧ (300 : Nat) ≠ 0 := by
  refine ⟨by decide, by decide, by decide⟩

/-- C9, amended. last_save_time is updated on exactly the flush calls
that pass the gates the variant implements - phase and rate in
kite_manual, rate only in kite_ws1 - independently of the store contents
(so also on attempts that write nothing because the store is empty, and
on attempts whose storage write subsequently fails: the assignment
precedes every storage operation); after any gate-passing attempt at
time t, a non-forced call within SAVE_INTERVAL of t is a no-op. -/
theorem C9_theorem :
    (∀ tmap store tod now ls force,
      (save_to_db_batch_manual tmap store tod now ls force).1 =
        if (force || is_market_open tod) && (force || !decide (now - ls < SAVE_INTERVAL))
        then now else ls) ∧
    (∀ tmap store now ls force,
      (save_to_db_batch_ws1 tmap store now ls force).1 =
        if force || !decide (now - ls < SAVE_INTERVAL) then now else ls) ∧
    (∀ tmap store tod now now2, now2 - now < SAVE_INTERVAL →
      save_to_db_batch_manual tmap store tod now2 now false = (now, [])) ∧
    (∀ tmap store now now2, now2 - now < SAVE_INTERVAL →
      save_to_db_batch_ws1 tmap store now2 now false = (now, Except.ok [])) := by
  refine ⟨?_, ?_, ?_, ?_⟩
  · intro tmap store tod now ls force
    unfold save_to_db_batch_manual
    cases force <;> cases hopen : is_market_open tod <;>
      by_cases hrate : now - ls < SAVE_INTERVAL <;>
      simp [hopen, hrate] <;> split_ifs <;> rfl
  · intro tmap store now ls force
    unfold save_to_db_batch_ws1
    cases force <;> by_cases hrate : now - ls < SAVE_INTERVAL <;>
      simp [hrate] <;> split_ifs <;> rfl
  · intro tmap store tod now now2 h
    unfold save_to_db_batch_manual
    split_ifs <;> first | rfl | (exfalso; simp_all)
  · intro tmap store now now2 h
    unfold save_to_db_batch_ws1
    split_ifs <;> first | rfl | (exfalso; simp_all)

/-- C9 witness: a non-forced kite_manual call within the interval of the
last gate-passing attempt leaves last_save_time at that attempt and
writes nothing. -/
theorem C9_witness :
    (30 : Nat) - 15 < SAVE_INTERVAL ∧
    save_to_db_batch_manual tmap0 store0 40000 30 15 false = (15, []) :=
  ⟨by decide, C9_theorem.2.2.1 tmap0 store0 40000 15 30 (by decide)⟩


theorem lookup_ingestStore (t : Tick) (store : Store) (tok : Nat) :
    List.lookup tok (ingestStore t store) =
      if tok = t.instrument_token
      then some (applyTick ((List.lookup tok store).getD emptyState) t)
      else List.lookup tok store := by
  induction store with
  | nil =>
    by_cases h : tok = t.instrument_token
    · have hb : (tok == t.instrument_token) = true := beq_iff_eq.mpr h
      simp [ingestStore, List.lookup, hb, h]
    · have hb : (tok == t.instrument_token) = false := by
        simp [h]
      simp [ingestStore, List.lookup, hb, h]
  | cons p rest ih =>
    by_cases hp : p.1 = t.instrument_token
    · by_cases h : tok = t.instrument_token
      · have hpp : (tok == p.1) = true := beq_iff_eq.mpr (by rw [h, hp])
        simp [ingestStore, hp, List.lookup, hpp, h]
      · have hpp : (tok == p.1) = false := by
          simp only [beq_eq_false_iff_ne, ne_eq]
          rw [hp]
          exact h
        have hbt : (tok == t.instrument_token) = false := by simp [h]
        simp [ingestStore, hp, List.lookup, hpp, hbt, h]
    · by_cases hq : tok = p.1
      · have h : ¬(tok = t.instrument_token) := by rw [hq]; exact hp
        have hb : (tok == p.1) = true := beq_iff_eq.mpr hq
        simp [ingestStore, hp, List.lookup, hb, h]
      · have hb : (tok == p.1) = false := by simp [hq]
        simp [ingestStore, hp, List.lookup, hb, ih]

theorem lookup_foldl_ingest (ts : List Tick) (store : Store) (tok : Nat) :
    List.lookup tok (ts.foldl (fun s t => ingestStore t s) store) =
      (if (ts.filter (fun t => t.instrument_token == tok)).isEmpty
       then List.lookup tok store
       else some ((ts.filter (fun t => t.instrument_token == tok)).foldl applyTick
         ((List.lookup tok store).getD emptyState))) := by
  induction ts generalizing store with
  | nil => simp [List.filter]
  | cons t rest ih =>
    by_cases h : t.instrument_token = tok
    · have hfil : (t :: rest).filter (fun u => u.instrument_token == tok) =
          t :: rest.filter (fun u => u.instrument_token == tok) := by
        simp [List.filter_cons, h]
      rw [hfil, List.foldl_cons, ih (ingestStore t store),
        lookup_ingestStore t store tok, if_pos h.symm]
      by_cases hrest : (rest.filter (fun u => u.instrument_token == tok)).isEmpty
      · rw [if_pos hrest]
        rw [List.isEmpty_iff.mp hrest]
        simp
      · rw [if_neg hrest, if_neg (by simp)]
        simp [List.foldl_cons]
    · have hfil : (t :: rest).filter (fun u => u.instrument_token == tok) =
          rest.filter (fun u => u.instrument_token == tok) := by
        simp [List.filter_cons, h]
      have hcond : ¬(tok = t.instrument_token) := fun hc => h hc.symm
      rw [hfil, List.foldl_cons, ih (ingestStore t store),
        lookup_ingestStore t store tok, if_neg hcond]


theorem lastN_length (cap : Nat) (l : List Nat) :
    (lastN cap l).length = min l.length cap := by
  unfold lastN
  rw [List.length_drop]
  omega

theorem dequePush_lastN (cap : Nat) (hcap : 0 < cap) (l : List Nat) (x : Nat) :
    dequePush cap (lastN cap l) x = lastN cap (l ++ [x]) := by
  by_cases h : l.length < cap
  · have h0 : l.length - cap = 0 := by omega
    unfold dequePush lastN
    rw [h0, List.drop_zero, if_pos h, List.length_append, List.length_cons, List.length_nil]
    rw [show l.length + (0 + 1) - cap = 0 from by omega, List.drop_zero]
  · have hge : cap ≤ l.length := le_of_not_lt h
    have hlen : (lastN cap l).length = cap := by
      rw [lastN_length]
      omega
    unfold dequePush
    rw [hlen, if_neg (lt_irrefl cap), show cap + 1 - cap = 1 from by omega]
    unfold lastN
    rw [List.length_append, List.length_cons, List.length_nil]
    rw [List.drop_append_of_le_length (by rw [List.length_drop]; omega)]
    rw [List.drop_drop]
    rw [List.drop_append_of_le_length (by omega)]
    rw [show l.length - cap + 1 = l.length + (0 + 1) - cap from by omega]

theorem foldl_dequePush_lastN (cap : Nat) (hcap : 0 < cap) (l : List Nat) :
    l.foldl (dequePush cap) [] = lastN cap l := by
  induction l using List.reverseRecOn with
  | nil => simp [lastN]
  | append_singleton l a ih =>
    rw [List.foldl_append, List.foldl_cons, List.foldl_nil, ih, dequePush_lastN cap hcap]

theorem foldl_applyTick_buy (fs : List Tick) (s : InstrumentState) :
    (fs.foldl applyTick s).buy_qty =
      (fs.map (fun t => t.total_buy_quantity.getD 0)).foldl
        (dequePush ROLLING_WINDOW) s.buy_qty := by
  induction fs generalizing s with
  | nil => rfl
  | cons t rest ih =>
    rw [List.foldl_cons, List.map_cons, List.foldl_cons, ih]
    rfl

theorem foldl_applyTick_sell (fs : List Tick) (s : InstrumentState) :
    (fs.foldl applyTick s).sell_qty =
      (fs.map (fun t => t.total_sell_quantity.getD 0)).foldl
        (dequePush ROLLING_WINDOW) s.sell_qty := by
  induction fs generalizing s with
  | nil => rfl
  | cons t rest ih =>
    rw [List.foldl_cons, List.map_cons, List.foldl_cons, ih]
    rfl

/-- C7, confirmed. For every tick sequence ingested from an empty store,
the state an instrument token reaches is the fold of its own ticks only;
its buy window holds exactly the last at most ROLLING_WINDOW pushed buy
quantities (oldest evicted first), likewise the sell window; and the
averages the flush reports on that state equal the specification formula
round(sum(window) / len(window), 2) applied to that suffix, with 0 on an
empty window. -/
theorem C7_theorem : ∀ (ts : List Tick) (tok : Nat),
    windowAvg [] = 0 ∧
    List.lookup tok (ingestAll ts) =
      (if (ts.filter (fun t => t.instrument_token == tok)).isEmpty then none
       else some ((ts.filter (fun t => t.instrument_token == tok)).foldl
         applyTick emptyState)) ∧
    ((ts.filter (fun t => t.instrument_token == tok)).foldl applyTick emptyState).buy_qty =
      lastN ROLLING_WINDOW ((ts.filter (fun t => t.instrument_token == tok)).map
        (fun t => t.total_buy_quantity.getD 0)) ∧
    ((ts.filter (fun t => t.instrument_token == tok)).foldl applyTick emptyState).sell_qty =
      lastN ROLLING_WINDOW ((ts.filter (fun t => t.instrument_token == tok)).map
        (fun t => t.total_sell_quantity.getD 0)) ∧
    windowAvg
        ((ts.filter (fun t => t.instrument_token == tok)).foldl applyTick emptyState).buy_qty =
      avgSpec (lastN ROLLING_WINDOW ((ts.filter (fun t => t.instrument_token == tok)).map
        (fun t => t.total_buy_quantity.getD 0))) ∧
    windowAvg
        ((ts.filter (fun t => t.instrument_token == tok)).foldl applyTick emptyState).sell_qty =
      avgSpec (lastN ROLLING_WINDOW ((ts.filter (fun t => t.instrument_token == tok)).map
        (fun t => t.total_sell_quantity.getD 0))) := by
  intro ts tok
  have hbuy : ((ts.filter (fun t => t.instrument_token == tok)).foldl
      applyTick emptyState).buy_qty =
      lastN ROLLING_WINDOW ((ts.filter (fun t => t.instrument_token == tok)).map
        (fun t => t.total_buy_quantity.getD 0)) := by
    rw [foldl_applyTick_buy]
    exact foldl_dequePush_lastN ROLLING_WINDOW (by decide) _
  have hsell : ((ts.filter (fun t => t.instrument_token == tok)).foldl
      applyTick emptyState).sell_qty =
      lastN ROLLING_WINDOW ((ts.filter (fun t => t.instrument_token == tok)).map
        (fun t => t.total_sell_quantity.getD 0)) := by
    rw [foldl_applyTick_sell]
    exact foldl_dequePush_lastN ROLLING_WINDOW (by decide) _
  refine ⟨rfl, ?_, hbuy, hsell, by rw [hbuy]; rfl, by rw [hsell]; rfl⟩
  rw [ingestAll, lookup_foldl_ingest ts [] tok]
  simp only [List.lookup_nil, Option.getD_none]

/-- C10, confirmed. In every state reachable by ingesting a tick
sequence into an empty store, a token is present exactly when at least
one tick carried it, its two windows have equal length (every ingested
tick pushes one value into each, absent fields defaulting to 0), and
that length is the minimum of the number of ticks for the token and
ROLLING_WINDOW. -/
theorem C10_theorem : ∀ (ts : List Tick) (tok : Nat),
    (List.lookup tok (ingestAll ts) = none →
      (ts.filter (fun t => t.instrument_token == tok)).length = 0) ∧
    (∀ st, List.lookup tok (ingestAll ts) = some st →
      st.buy_qty.length = st.sell_qty.length ∧
      st.buy_qty.length =
        min (ts.filter (fun t => t.instrument_token == tok)).length ROLLING_WINDOW) := by
  intro ts tok
  constructor
  · intro hnone
    rw [ingestAll, lookup_foldl_ingest ts [] tok] at hnone
    by_cases hemp : (ts.filter (fun t => t.instrument_token == tok)).isEmpty
    · rw [List.isEmpty_iff.mp hemp]
      rfl
    · rw [if_neg hemp] at hnone
      cases hnone
  · intro st hsome
    rw [ingestAll, lookup_foldl_ingest ts [] tok] at hsome
    simp only [List.lookup_nil, Option.getD_none] at hsome
    by_cases hemp : (ts.filter (fun t => t.instrument_token == tok)).isEmpty
    · rw [if_pos hemp] at hsome
      cases hsome
    · rw [if_neg hemp] at hsome
      injection hsome with hst
      rw [← hst]
      constructor
      · rw [foldl_applyTick_buy, foldl_applyTick_sell]
        simp only [emptyState]
        rw [foldl_dequePush_lastN ROLLING_WINDOW (by decide),
          foldl_dequePush_lastN ROLLING_WINDOW (by decide),
          lastN_length, lastN_length, List.length_map, List.length_map]
      · rw [foldl_applyTick_buy]
        simp only [emptyState]
        rw [foldl_dequePush_lastN ROLLING_WINDOW (by decide),
          lastN_length, List.length_map]

/-- C10 witness: after one tick for token 999 both windows hold exactly
one element. -/
theorem C10_witness :
    (applyTick emptyState tick999).buy_qty.length =
      (applyTick emptyState tick999).sell_qty.length ∧
    (applyTick emptyState tick999).buy_qty.length =
      min ([tick999].filter (fun t => t.instrument_token == 999)).length ROLLING_WINDOW :=
  (C10_theorem [tick999] 999).2 (applyTick emptyState tick999) (by decide)

/-- C8 counterexample. The claim asserts that a tick for a token outside
the loaded universe never causes a subsequent operation to raise. In
kite_ws1 the tick is ingested (on_ticks has no filter), and the next
flush evaluates token_to_symbol[token], which raises KeyError for the
unknown token 999. -/
theorem C8_counterexample :
    List.lookup 999 tmap0 = none ∧
    errMsg (save_to_db_batch_ws1 tmap0 (ingestStore tick999 []) 30 0 true).2 =
      some ("999") := by
  refine ⟨by decide, by decide⟩

/-- C8, amended. Unknown-token ticks are handled without error by two of
the three variants: kite_manual ingests them and persists them under the
token rendered in decimal as fallback table name
(token_to_symbol.get(token, str(token))), and kite_ws drops them at
ingestion; but in kite_ws1 an ingested unknown token makes the next
flush that reaches it raise a key-lookup error (see the counterexample),
so the never-crash guarantee does not hold there. -/
theorem C8_theorem :
    (∀ (tmap : List (Nat × String)) (tok : Nat) (st : InstrumentState) (price : ℚ),
      List.lookup tok tmap = none → st.ltp = some price →
      manualRowOps tmap [(tok, st)] =
        [DbOp.execCreate (createStmt (toString tok)),
         DbOp.execInsert (insertStmt (toString tok)) (mkRow (toString tok) price st)]) ∧
    (∀ (tokens : List Nat) (t : Tick) (store : Store),
      tokens.contains t.instrument_token = false →
      ingestStoreWs tokens t store = store) ∧
    (∀ (tmap : List (Nat × String)) (tok : Nat) (st : InstrumentState) (price : ℚ)
      (now ls : Nat),
      List.lookup tok tmap = none → st.ltp = some price →
      (save_to_db_batch_ws1 tmap [(tok, st)] now ls true).2 =
        Except.error (toString tok)) := by
  refine ⟨?_, ?_, ?_⟩
  · intro tmap tok st price hlook hltp
    rw [manualRowOps.eq_def]
    simp only [hltp, hlook]
    rfl
  · intro tokens t store h
    unfold ingestStoreWs
    have hne : ¬(tokens.contains t.instrument_token = true) := by
      rw [h]
      intro hc
      cases hc
    rw [if_neg hne]
  · intro tmap tok st price now ls hlook hltp
    unfold save_to_db_batch_ws1
    rw [ws1RowOps.eq_def]
    simp only [hltp, hlook]
    simp [Except.map]

/-- C8 witness: a concrete forced kite_manual flush of an unknown token
builds its statements for the fallback table name 999. -/
theorem C8_witness :
    manualRowOps tmap0 [(999, stA)] =
      [DbOp.execCreate (createStmt (toString 999)),
       DbOp.execInsert (insertStmt (toString 999)) (mkRow (toString 999) 100 stA)] :=
  C8_theorem.1 tmap0 999 stA 100 (by decide) (by decide)

end Kite
